import Mathlib

/-!
Verification development for the supercell content-negotiation subsystem
(`supercell/api/provider.py`): the provider registry built by
`ProviderMeta.__new__` and the matching engine `ProviderMeta.map_provider`,
together with the `ContentType` value model and the `Accept`-header parser
that the engine consumes.

`ProviderMeta.map_provider` and `ProviderMeta.__new__` are embedded from the
source. `ContentType` (imported from `supercell.api`) and
`parse_accept_header` (imported from `supercell.utils`) are not part of the
available source files; they are modelled from the specification, as marked
in their doc comments.
-/

/-- Modelled from the spec: `ContentType` (from `supercell.api`, not in the
available sources) is an immutable value of a base media type plus optional
vendor and version qualifiers; two values are equal iff all three fields
match exactly.  The first field keeps the source attribute name
`content_type` (the code reads `ct.content_type`); the spec calls it
`media_type`. -/
structure ContentType where
  content_type : String
  vendor : Option String
  version : Option String
deriving DecidableEq, Repr

/-- A provider class, as seen by the metaclass `ProviderMeta.__new__`: a
name and the declared `CONTENT_TYPE` attribute, which is `None`
(modelled as `none`) on `ProviderBase` itself. -/
structure ProviderClass where
  name : String
  CONTENT_TYPE : Option ContentType
deriving DecidableEq, Repr

/-- `NoProviderFound`: the single error kind raised when no matching
provider for the client's `Accept` header was found.  It carries no code
or subtype. -/
inductive NoProviderFound where
  | mk : NoProviderFound
deriving DecidableEq, Repr

deriving instance DecidableEq for Except

/-- `ProviderMeta.KNOWN_CONTENT_TYPES` is a `defaultdict(list)` keyed by the
base media-type string; viewed extensionally (lookup of an absent key
yields the empty list) it is a total function into lists of registered
`(ContentType, provider class)` pairs. -/
abbrev Registry : Type := String → List (ContentType × ProviderClass)

/-- The handler's `_PROD_CONTENT_TYPES`: a plain mapping from base
media-type string to the set (modelled as a list) of `ContentType` values
the handler is willing to produce; modelled as an association list. -/
abbrev Allowed : Type := List (String × List ContentType)

/-- First-match association-list lookup, the model of Python `dict`
indexing (keys are unique in the dicts the code builds). -/
def alookup {α β : Type} [DecidableEq α] : List (α × β) → α → Option β
  | [], _ => none
  | (k, v) :: rest, a => if k = a then some v else alookup rest a

/-- `ProviderMeta.__new__`: registering a provider class appends
`(ct, provider_class)` to `KNOWN_CONTENT_TYPES[ct.content_type]` when the
class declares a non-`None` `CONTENT_TYPE` (`if ct:`, always truthy for a
`ContentType` value), and leaves the registry untouched otherwise. -/
def register (cls : ProviderClass) (r : Registry) : Registry :=
  match cls.CONTENT_TYPE with
  | none => r
  | some ct => fun k =>
      if k = ct.content_type then r k ++ [(ct, cls)] else r k

/-- Modelled from the spec: one parsed `Accept`-header entry
(`AcceptPreference`, produced by `supercell.utils.parse_accept_header`,
not in the available sources): media type, the remaining parameters, and
the quality value (a float in the source, modelled as a rational since
negotiation never inspects it). -/
structure AcceptPreference where
  media_type : String
  params : List (String × String)
  quality : Rat
deriving DecidableEq, Repr

def vendorKey : String := "vendor"

def versionKey : String := "version"

def qKey : String := "q"

/-- The candidate `ContentType` that `map_provider` builds from a parsed
preference: `ContentType(ctype, vendor=params.get('vendor', None),
version=params.get('version', None))`. -/
def candidateOf (p : AcceptPreference) : ContentType :=
  ⟨p.media_type, alookup p.params vendorKey, alookup p.params versionKey⟩

/-- Split a character list at every occurrence of `c`; always returns at
least one (possibly empty) segment, like Python `str.split`. -/
def splitOnChar (c : Char) : List Char → List (List Char)
  | [] => [[]]
  | x :: xs =>
    match splitOnChar c xs with
    | [] => [[x]]
    | y :: ys => if x = c then [] :: y :: ys else (x :: y) :: ys

/-- Strip leading and trailing whitespace from a character list. -/
def trimChars (l : List Char) : List Char :=
  ((l.dropWhile Char.isWhitespace).reverse.dropWhile Char.isWhitespace).reverse

/-- Insert a key/value pair into an association list with Python `dict`
assignment semantics: an existing binding of the key is overwritten in
place, otherwise the pair is appended. -/
def dictInsert : List (String × String) → String → String → List (String × String)
  | [], k, v => [(k, v)]
  | (k', v') :: rest, k, v =>
    if k' = k then (k, v) :: rest else (k', v') :: dictInsert rest k v

/-- Parse a maximal digit string into a natural number; `none` if empty or
containing a non-digit. -/
def parseDigits : List Char → Option Nat
  | [] => none
  | l => l.foldl (fun acc c =>
      match acc with
      | none => none
      | some n => if c.isDigit then some (n * 10 + (c.toNat - 48)) else none)
      (some 0)

/-- Modelled from the spec: the quality value of a `q` parameter, parsed
from a decimal literal; the spec leaves the fallback on a malformed value
as an implementation choice, and this model falls back to `1`. -/
def parseQuality (s : List Char) : Rat :=
  match splitOnChar '.' s with
  | [w] =>
    match parseDigits w with
    | some n => (n : Rat)
    | none => 1
  | [w, f] =>
    match parseDigits w, parseDigits f with
    | some n, some m => (n : Rat) + (m : Rat) / ((10 : Rat) ^ f.length)
    | _, _ => 1
  | _ => 1

/-- Modelled from the spec: one comma-separated `Accept` entry is split on
`;` into the media-type token and `key=value` parameter tokens; tokens and
values are trimmed; the `q` parameter becomes the quality (default `1`),
all other parameters are preserved in `params`; a token without a single
`=` carries no parameter (an implementation choice the spec leaves open). -/
def parseEntry (entry : List Char) : AcceptPreference :=
  match splitOnChar ';' entry with
  | [] => ⟨"", [], 1⟩
  | media :: toks =>
    let ps := toks.foldl (fun acc tok =>
      match splitOnChar '=' tok with
      | [k, v] => dictInsert acc (String.mk (trimChars k)) (String.mk (trimChars v))
      | _ => acc) []
    ⟨String.mk (trimChars media),
     ps.filter (fun kv => kv.1 ≠ qKey),
     match alookup ps qKey with
     | some qs => parseQuality qs.toList
     | none => 1⟩

/-- Modelled from the spec: `supercell.utils.parse_accept_header` (not in
the available sources) splits the raw header on `,` and parses each entry,
preserving header order; the empty string yields zero entries. -/
def parse_accept_header (raw : String) : List AcceptPreference :=
  if raw.length = 0 then [] else (splitOnChar ',' raw.toList).map parseEntry

/-- The matching loop of `ProviderMeta.map_provider`, iterating the parsed
preferences in header order: an `Accept` media type absent from the
handler's `_PROD_CONTENT_TYPES` raises `NoProviderFound`; a candidate
`ContentType` outside the allowed set raises `NoProviderFound`; the
registry entries for the media type are filtered to those whose
`ContentType` equals the candidate, and a unique match returns its
provider class, while zero or several matches continue with the next
preference; an exhausted loop raises `NoProviderFound`. -/
def mapLoop (registry : Registry) (allowed : Allowed) :
    List AcceptPreference → Except NoProviderFound ProviderClass
  | [] => .error .mk
  | p :: rest =>
    match alookup allowed p.media_type with
    | none => .error .mk
    | some cts =>
      if candidateOf p ∈ cts then
        match (registry p.media_type).filter (fun t => t.1 = candidateOf p) with
        | [t] => .ok t.2
        | _ => mapLoop registry allowed rest
      else .error .mk

/-- `ProviderMeta.map_provider`: parse the `Accept` header, raise
`NoProviderFound` on a zero-length raw header, and otherwise run the
matching loop.  The registry is taken extensionally (the `defaultdict`
lookup as a function); `mapProviderSt` below keeps the dict structure. -/
def map_provider (registry : Registry) (accept_header : String)
    (allowed : Allowed) : Except NoProviderFound ProviderClass :=
  let accept := parse_accept_header accept_header
  if accept_header.length = 0 then .error .mk
  else mapLoop registry allowed accept

-- Concrete instances mirroring the source: the JSON provider and
-- `ProviderBase`.

def mtJson : String := "application/json"

def mtXml : String := "application/xml"

/-- `JsonProvider.CONTENT_TYPE = ContentType('application/json', None, None)`. -/
def ctJson : ContentType := ⟨mtJson, none, none⟩

def ctXml : ContentType := ⟨mtXml, none, none⟩

/-- The default `application/json` provider class. -/
def JsonProviderCls : ProviderClass := ⟨"JsonProvider", some ctJson⟩

/-- `ProviderBase` declares `CONTENT_TYPE = None`. -/
def ProviderBaseCls : ProviderClass := ⟨"ProviderBase", none⟩

/-- The empty registry. -/
def emptyRegistry : Registry := fun _ => []

/-- The registry of the spec's worked example:
`{application/json: [(ContentType("application/json"), JsonProvider)]}`. -/
def jsonRegistry : Registry := register JsonProviderCls emptyRegistry

/-- The handler capability set of the spec's worked example:
`allowed = {"application/json": {ContentType("application/json")}}`. -/
def jsonAllowed : Allowed := [(mtJson, [ctJson])]

/-- The single parsed preference of the header `"application/json"`. -/
def prefJson : AcceptPreference := ⟨mtJson, [], 1⟩

-- Header strings of the spec's worked examples.

def hdrJson : String := "application/json"

def hdrXmlThenJson : String := "application/xml, application/json"

def hdrJsonV2 : String := "application/json;version=2"

def hdrXml : String := "application/xml"

/-- The first parsed preference of `hdrXmlThenJson`. -/
def prefXml : AcceptPreference := ⟨mtXml, [], 1⟩

/-- The single parsed preference of `hdrJsonV2`. -/
def prefJsonV2 : AcceptPreference := ⟨mtJson, [(versionKey, "2")], 1⟩

/-- A JSON preference with a lowered quality value. -/
def prefJsonHalf : AcceptPreference := ⟨mtJson, [], (1 : Rat) / 2⟩

/-! ### The registry as a Python dict

`KNOWN_CONTENT_TYPES` is a `defaultdict(list)`.  Besides the extensional
view above, the dict has observable structure: indexing a missing key with
`[ctype]` — as `map_provider`'s list comprehension does — materializes an
empty list under that key.  `RegistryD` keeps the dict as an insertion-
ordered association list so this mutation is visible. -/

/-- The registry dict itself: insertion-ordered key/value pairs. -/
abbrev RegistryD : Type := List (String × List (ContentType × ProviderClass))

/-- `defaultdict.__getitem__`: return the stored list, or materialize an
empty list under the key (appended in insertion order) and return it. -/
def dgetItem (r : RegistryD) (k : String) :
    List (ContentType × ProviderClass) × RegistryD :=
  match alookup r k with
  | some v => (v, r)
  | none => ([], r ++ [(k, [])])

/-- The lookup function a `RegistryD` denotes under `defaultdict`
semantics: an absent key reads as the empty list. -/
def dlookup (r : RegistryD) (k : String) : List (ContentType × ProviderClass) :=
  (alookup r k).getD []

/-- The matching loop of `ProviderMeta.map_provider` with the registry
dict threaded through, so the `defaultdict` materialization performed by
`ProviderMeta.KNOWN_CONTENT_TYPES[ctype]` is recorded. -/
def mapLoopSt (allowed : Allowed) :
    RegistryD → List AcceptPreference →
      Except NoProviderFound ProviderClass × RegistryD
  | r, [] => (.error .mk, r)
  | r, p :: rest =>
    match alookup allowed p.media_type with
    | none => (.error .mk, r)
    | some cts =>
      if candidateOf p ∈ cts then
        match ((dgetItem r p.media_type).1).filter (fun t => t.1 = candidateOf p) with
        | [t] => (.ok t.2, (dgetItem r p.media_type).2)
        | _ => mapLoopSt allowed (dgetItem r p.media_type).2 rest
      else (.error .mk, r)

/-- `ProviderMeta.map_provider` over the registry dict: same control flow
as `map_provider`, returning the (possibly grown) dict alongside the
outcome. -/
def mapProviderSt (r : RegistryD) (accept_header : String)
    (allowed : Allowed) : Except NoProviderFound ProviderClass × RegistryD :=
  let accept := parse_accept_header accept_header
  if accept_header.length = 0 then (.error .mk, r)
  else mapLoopSt allowed r accept

/-- The registry dict of the worked example, as stored:
one key, `application/json`, holding the JSON provider entry. -/
def jsonRegistryD : RegistryD := [(mtJson, [(ctJson, JsonProviderCls)])]

/-- A handler producing only the unversioned `application/xml`. -/
def xmlAllowed : Allowed := [(mtXml, [ctXml])]

/-! ### Failure characterization and registry invariant -/

/-- The conditions under which the matching loop fails, read off the spec:
either the preferences are exhausted, or the head preference's media type
is not produced by the handler, or its candidate `ContentType` is not in
the handler's allowed set, or the registry holds no unique match for it
and the loop fails on the remaining preferences. -/
inductive LoopFails (registry : Registry) (allowed : Allowed) :
    List AcceptPreference → Prop
  | exhausted : LoopFails registry allowed []
  | unsupportedMedia {p : AcceptPreference} {rest : List AcceptPreference}
      (h : alookup allowed p.media_type = none) :
      LoopFails registry allowed (p :: rest)
  | disallowedVariant {p : AcceptPreference} {rest : List AcceptPreference}
      {cts : List ContentType}
      (h1 : alookup allowed p.media_type = some cts)
      (h2 : candidateOf p ∉ cts) :
      LoopFails registry allowed (p :: rest)
  | noUniqueMatch {p : AcceptPreference} {rest : List AcceptPreference}
      {cts : List ContentType}
      (h1 : alookup allowed p.media_type = some cts)
      (h2 : candidateOf p ∈ cts)
      (h3 : ((registry p.media_type).filter
        (fun t => t.1 = candidateOf p)).length ≠ 1)
      (h4 : LoopFails registry allowed rest) :
      LoopFails registry allowed (p :: rest)

/-- Registry well-formedness: every entry stored under base media-type key
`k` carries a `ContentType` whose base media type is `k`. -/
def RegWF (r : Registry) : Prop :=
  ∀ k ct cls, (ct, cls) ∈ r k → ct.content_type = k

/-! ### Helper lemmas -/

lemma dlookup_append_single (r : RegistryD) (k k' : String) :
    dlookup (r ++ [(k, [])]) k' = dlookup r k' := by
  induction r with
  | nil =>
    simp only [dlookup, alookup, List.nil_append]
    split <;> rfl
  | cons kv rest ih =>
    obtain ⟨k0, v0⟩ := kv
    simp only [dlookup, alookup, List.cons_append] at *
    split
    · rfl
    · exact ih

lemma dgetItem_fst (r : RegistryD) (k : String) :
    (dgetItem r k).1 = dlookup r k := by
  unfold dgetItem dlookup
  cases alookup r k <;> rfl

lemma dlookup_dgetItem (r : RegistryD) (k k' : String) :
    dlookup (dgetItem r k).2 k' = dlookup r k' := by
  unfold dgetItem
  cases h : alookup r k with
  | some v => rfl
  | none => exact dlookup_append_single r k k'

lemma mapLoop_error_iff (registry : Registry) (allowed : Allowed) :
    ∀ l, mapLoop registry allowed l = .error .mk ↔
      LoopFails registry allowed l := by
  intro l
  induction l with
  | nil => exact ⟨fun _ => .exhausted, fun _ => rfl⟩
  | cons p rest ih =>
    unfold mapLoop
    cases halo : alookup allowed p.media_type with
    | none =>
      exact ⟨fun _ => .unsupportedMedia halo, fun _ => rfl⟩
    | some cts =>
      by_cases hc : candidateOf p ∈ cts
      · simp only [if_pos hc]
        cases hf : (registry p.media_type).filter (fun t => t.1 = candidateOf p) with
        | nil =>
          constructor
          · intro he
            exact .noUniqueMatch halo hc (by rw [hf]; simp) (ih.1 he)
          · intro hlf
            cases hlf with
            | unsupportedMedia h => rw [halo] at h; cases h
            | disallowedVariant h1 h2 =>
              rw [halo] at h1
              cases h1
              exact absurd hc h2
            | noUniqueMatch h1 h2 h3 h4 => exact ih.2 h4
        | cons t ts =>
          cases ts with
          | nil =>
            constructor
            · intro he
              exact Except.noConfusion he
            · intro hlf
              cases hlf with
              | unsupportedMedia h => rw [halo] at h; cases h
              | disallowedVariant h1 h2 =>
                rw [halo] at h1
                cases h1
                exact absurd hc h2
              | noUniqueMatch h1 h2 h3 h4 =>
                rw [hf] at h3
                simp at h3
          | cons t2 ts2 =>
            constructor
            · intro he
              exact .noUniqueMatch halo hc (by rw [hf]; simp) (ih.1 he)
            · intro hlf
              cases hlf with
              | unsupportedMedia h => rw [halo] at h; cases h
              | disallowedVariant h1 h2 =>
                rw [halo] at h1
                cases h1
                exact absurd hc h2
              | noUniqueMatch h1 h2 h3 h4 => exact ih.2 h4
      · simp only [if_neg hc]
        exact ⟨fun _ => .disallowedVariant halo hc, fun _ => by trivial⟩

lemma mapLoopSt_snd (allowed : Allowed) :
    ∀ (l : List AcceptPreference) (r : RegistryD) (k : String),
      dlookup (mapLoopSt allowed r l).2 k = dlookup r k := by
  intro l
  induction l with
  | nil => intro r k; rfl
  | cons p rest ih =>
    intro r k
    unfold mapLoopSt
    cases halo : alookup allowed p.media_type with
    | none => rfl
    | some cts =>
      by_cases hc : candidateOf p ∈ cts
      · simp only [if_pos hc]
        have hr' : dlookup (dgetItem r p.media_type).2 k = dlookup r k :=
          dlookup_dgetItem r p.media_type k
        cases hf : ((dgetItem r p.media_type).1).filter
            (fun t => t.1 = candidateOf p) with
        | nil => exact (ih (dgetItem r p.media_type).2 k).trans hr'
        | cons t ts =>
          cases ts with
          | nil => exact hr'
          | cons t2 ts2 => exact (ih (dgetItem r p.media_type).2 k).trans hr'
      · simp only [if_neg hc]

lemma mapLoopSt_fst (allowed : Allowed) :
    ∀ (l : List AcceptPreference) (r : RegistryD),
      (mapLoopSt allowed r l).1 = mapLoop (dlookup r) allowed l := by
  intro l
  induction l with
  | nil => intro r; rfl
  | cons p rest ih =>
    intro r
    unfold mapLoopSt mapLoop
    cases halo : alookup allowed p.media_type with
    | none => rfl
    | some cts =>
      by_cases hc : candidateOf p ∈ cts
      · simp only [if_pos hc]
        have hreq : dlookup (dgetItem r p.media_type).2 = dlookup r := by
          funext k'
          exact dlookup_dgetItem r p.media_type k'
        rw [dgetItem_fst r p.media_type]
        cases hf : (dlookup r p.media_type).filter
            (fun t => t.1 = candidateOf p) with
        | nil =>
          have h := ih (dgetItem r p.media_type).2
          rw [hreq] at h
          exact h
        | cons t ts =>
          cases ts with
          | nil => rfl
          | cons t2 ts2 =>
            have h := ih (dgetItem r p.media_type).2
            rw [hreq] at h
            exact h
      · simp only [if_neg hc]
/-! ### The claims -/

/-- C1: a preference `p` reached by the matching loop whose media type is a
key of the handler's allowed mapping, whose candidate `ContentType` (media
type plus vendor/version parameters) is a member of the allowed set, and
for which exactly one registry entry under `p`'s media type has a
`ContentType` equal to the candidate, makes negotiation succeed with that
entry's provider. -/
theorem claim_C1 (registry : Registry) (allowed : Allowed)
    (p : AcceptPreference) (rest : List AcceptPreference)
    (cts : List ContentType) (ct : ContentType) (cls : ProviderClass)
    (h1 : alookup allowed p.media_type = some cts)
    (h2 : candidateOf p ∈ cts)
    (h3 : (registry p.media_type).filter (fun t => t.1 = candidateOf p)
      = [(ct, cls)]) :
    mapLoop registry allowed (p :: rest) = .ok cls := by
  unfold mapLoop
  simp only [h1, if_pos h2, h3]

/-- C1 witness: in the spec's worked example — registry
`{application/json: [(ContentType("application/json"), JsonProvider)]}`,
`allowed = {"application/json": {ContentType("application/json")}}`, header
`"application/json"` — exactly one registry entry matches the candidate
and `select` returns the JSON provider. -/
theorem claim_C1_witness :
    (jsonRegistry mtJson).filter (fun t => t.1 = candidateOf prefJson)
        = [(ctJson, JsonProviderCls)]
    ∧ map_provider jsonRegistry hdrJson jsonAllowed = .ok JsonProviderCls := by
  refine ⟨by decide, ?_⟩
  have h := claim_C1 jsonRegistry jsonAllowed prefJson [] [ctJson] ctJson
    JsonProviderCls (by decide) (by decide) (by decide)
  have e : map_provider jsonRegistry hdrJson jsonAllowed
      = mapLoop jsonRegistry jsonAllowed [prefJson] := by decide
  rw [e, h]

/-- C2: if the first preference in header order has a media type that is
not a key of the allowed mapping, negotiation fails immediately with
`NoProviderFound`, regardless of the remaining preferences. -/
theorem claim_C2 (registry : Registry) (allowed : Allowed)
    (p : AcceptPreference) (rest : List AcceptPreference)
    (h : alookup allowed p.media_type = none) :
    mapLoop registry allowed (p :: rest) = .error .mk := by
  unfold mapLoop
  simp only [h]

/-- C2 witness: for the two-entry header
`"application/xml, application/json"` against a handler that only allows
`application/json`, negotiation fails with `NoProviderFound`, although the
later preference alone would have produced the JSON provider. -/
theorem claim_C2_witness :
    alookup jsonAllowed prefXml.media_type = none
    ∧ map_provider jsonRegistry hdrXmlThenJson jsonAllowed = .error .mk
    ∧ mapLoop jsonRegistry jsonAllowed [prefJson] = .ok JsonProviderCls := by
  refine ⟨by decide, ?_, by decide⟩
  have h := claim_C2 jsonRegistry jsonAllowed prefXml [prefJson] (by decide)
  have e : map_provider jsonRegistry hdrXmlThenJson jsonAllowed
      = mapLoop jsonRegistry jsonAllowed [prefXml, prefJson] := by decide
  rw [e, h]

/-- C3: for every registry state and allowed mapping, negotiation with the
empty raw `Accept` header string fails with `NoProviderFound` (and, in the
stateful view, leaves the registry dict untouched). -/
theorem claim_C3 (registry : Registry) (rD : RegistryD) (allowed : Allowed) :
    map_provider registry "" allowed = .error .mk
    ∧ mapProviderSt rD "" allowed = (.error .mk, rD) :=
  ⟨rfl, rfl⟩

/-- C4: if a reached preference's media type is a key of the allowed
mapping but the candidate `ContentType` built from its vendor/version
parameters is not a member of the allowed set, negotiation fails
immediately with `NoProviderFound`, not considering later preferences. -/
theorem claim_C4 (registry : Registry) (allowed : Allowed)
    (p : AcceptPreference) (rest : List AcceptPreference)
    (cts : List ContentType)
    (h1 : alookup allowed p.media_type = some cts)
    (h2 : candidateOf p ∉ cts) :
    mapLoop registry allowed (p :: rest) = .error .mk := by
  unfold mapLoop
  simp only [h1, if_neg h2]

/-- C4 witness: the header `"application/json;version=2"` against a
handler that allows only the unversioned `application/json` yields
`NoProviderFound` — the versioned candidate is not in the allowed set. -/
theorem claim_C4_witness :
    alookup jsonAllowed prefJsonV2.media_type = some [ctJson]
    ∧ candidateOf prefJsonV2 ∉ [ctJson]
    ∧ map_provider jsonRegistry hdrJsonV2 jsonAllowed = .error .mk := by
  refine ⟨by decide, by decide, ?_⟩
  have h := claim_C4 jsonRegistry jsonAllowed prefJsonV2 [] [ctJson]
    (by decide) (by decide)
  have e : map_provider jsonRegistry hdrJsonV2 jsonAllowed
      = mapLoop jsonRegistry jsonAllowed [prefJsonV2] := by decide
  rw [e, h]

/-- C5: if a reached preference passes the allowed-mapping and allowed-set
checks but the number of equal-`ContentType` registry entries is not
exactly one, the loop continues with the next preference instead of
failing there; and the exhausted loop fails with `NoProviderFound`. -/
theorem claim_C5 (registry : Registry) (allowed : Allowed)
    (p : AcceptPreference) (rest : List AcceptPreference)
    (cts : List ContentType)
    (h1 : alookup allowed p.media_type = some cts)
    (h2 : candidateOf p ∈ cts)
    (h3 : ((registry p.media_type).filter
      (fun t => t.1 = candidateOf p)).length ≠ 1) :
    mapLoop registry allowed (p :: rest) = mapLoop registry allowed rest
    ∧ mapLoop registry allowed [] = .error .mk := by
  constructor
  · conv_lhs => rw [mapLoop]
    simp only [h1, if_pos h2]
    cases hf : (registry p.media_type).filter (fun t => t.1 = candidateOf p) with
    | nil => rfl
    | cons t ts =>
      cases ts with
      | nil => rw [hf] at h3; simp at h3
      | cons t2 ts2 => rfl
  · rfl

/-- C5 witness: with an empty registry, the JSON preference has zero
matching registry entries, so for a single-entry header the loop falls
through to exhaustion and fails with `NoProviderFound`. -/
theorem claim_C5_witness :
    ((emptyRegistry mtJson).filter
        (fun t => t.1 = candidateOf prefJson)).length ≠ 1
    ∧ mapLoop emptyRegistry jsonAllowed [prefJson]
        = mapLoop emptyRegistry jsonAllowed []
    ∧ mapLoop emptyRegistry jsonAllowed [] = .error .mk := by
  refine ⟨by decide, ?_⟩
  exact claim_C5 emptyRegistry jsonAllowed prefJson [] [ctJson]
    (by decide) (by decide) (by decide)

/-- C6: registering a provider class appends the `(ContentType, provider)`
pair to the list keyed by the `ContentType`'s base media type, leaves all
other keys unchanged, and a second registration with an equal
`ContentType` is not deduplicated: both entries persist in registration
order. -/
theorem claim_C6 (r : Registry) (cA cB : ProviderClass) (ct : ContentType)
    (h1 : cA.CONTENT_TYPE = some ct) (h2 : cB.CONTENT_TYPE = some ct) :
    register cA r ct.content_type = r ct.content_type ++ [(ct, cA)]
    ∧ register cB (register cA r) ct.content_type
        = r ct.content_type ++ [(ct, cA), (ct, cB)]
    ∧ ∀ k, k ≠ ct.content_type → register cB (register cA r) k = r k := by
  refine ⟨?_, ?_, ?_⟩
  · simp [register, h1]
  · simp [register, h1, h2]
  · intro k hk
    simp [register, h1, h2, hk]

/-- C6 witness: registering the JSON provider class twice over the empty
registry leaves two identical entries, in registration order, under
`application/json`. -/
theorem claim_C6_witness :
    JsonProviderCls.CONTENT_TYPE = some ctJson
    ∧ register JsonProviderCls (register JsonProviderCls emptyRegistry) mtJson
        = [(ctJson, JsonProviderCls), (ctJson, JsonProviderCls)] := by
  refine ⟨by decide, ?_⟩
  have h := (claim_C6 emptyRegistry JsonProviderCls JsonProviderCls ctJson
    rfl rfl).2.1
  simpa [emptyRegistry] using h

/-- C7: negotiation has exactly one failure outcome — `map_provider`
either returns a provider or fails with the single, fieldless
`NoProviderFound`, and it fails exactly when the raw header is empty or
the matching loop fails on the parsed preferences (a reached media type
not produced, a reached candidate outside the allowed set, or exhaustion
without a unique registry match, per `LoopFails`). -/
theorem claim_C7 (registry : Registry) (header : String) (allowed : Allowed) :
    ((∃ cls, map_provider registry header allowed = .ok cls)
      ∨ map_provider registry header allowed = .error .mk)
    ∧ (map_provider registry header allowed = .error .mk ↔
        header.length = 0
          ∨ LoopFails registry allowed (parse_accept_header header))
    ∧ ∀ e eA : NoProviderFound, e = eA := by
  refine ⟨?_, ?_, fun e eA => by cases e; cases eA; rfl⟩
  · cases h : map_provider registry header allowed with
    | ok cls => exact .inl ⟨cls, rfl⟩
    | error e => cases e; exact .inr rfl
  · simp only [map_provider]
    by_cases hlen : header.length = 0
    · simp only [if_pos hlen]
      exact ⟨fun _ => .inl hlen, fun _ => by trivial⟩
    · simp only [if_neg hlen]
      rw [mapLoop_error_iff]
      constructor
      · exact fun h => .inr h
      · intro h
        cases h with
        | inl h0 => exact absurd h0 hlen
        | inr hl => exact hl

/-- C8 counterexample: negotiation is not free of registry side effects.
With the JSON-only registry dict, a handler producing `application/xml`,
and the header `"application/xml"`, `map_provider`'s
`KNOWN_CONTENT_TYPES[ctype]` indexing materializes an empty list under
the key `application/xml`, so the registry dict after the call differs
from the one before. -/
theorem claim_C8_counterexample :
    (mapProviderSt jsonRegistryD hdrXml xmlAllowed).2
        = jsonRegistryD ++ [(mtXml, [])]
    ∧ (mapProviderSt jsonRegistryD hdrXml xmlAllowed).2 ≠ jsonRegistryD :=
  ⟨by decide, by decide⟩

/-- C8 (amended): negotiation is deterministic and preserves the registry
as a lookup mapping — every key's looked-up value (under `defaultdict`
semantics) is unchanged, the outcome is a pure function of the registry's
lookup snapshot, and a repeated invocation on the post-state returns the
same outcome; only empty default entries may be materialized in the dict
itself. -/
theorem claim_C8 (r : RegistryD) (header : String) (allowed : Allowed) :
    (∀ k, dlookup (mapProviderSt r header allowed).2 k = dlookup r k)
    ∧ (mapProviderSt (mapProviderSt r header allowed).2 header allowed).1
        = (mapProviderSt r header allowed).1
    ∧ (mapProviderSt r header allowed).1
        = map_provider (dlookup r) header allowed := by
  have hsnd : ∀ (rA : RegistryD) (k : String),
      dlookup (mapProviderSt rA header allowed).2 k = dlookup rA k := by
    intro rA k
    simp only [mapProviderSt]
    by_cases h : header.length = 0
    · simp only [if_pos h]
    · simp only [if_neg h]
      exact mapLoopSt_snd allowed _ rA k
  have hfst : ∀ rA : RegistryD,
      (mapProviderSt rA header allowed).1
        = map_provider (dlookup rA) header allowed := by
    intro rA
    simp only [mapProviderSt, map_provider]
    by_cases h : header.length = 0
    · simp only [if_pos h]
    · simp only [if_neg h]
      exact mapLoopSt_fst allowed _ rA
  refine ⟨hsnd r, ?_, hfst r⟩
  rw [hfst, hfst]
  have he : dlookup (mapProviderSt r header allowed).2 = dlookup r :=
    funext (hsnd r)
  rw [he]

/-- C9: the selection outcome is independent of quality values — two
parsed headers that agree entry by entry on media type and on the
vendor/version parameter lookups (whatever their `q` values) drive the
matching loop to the same outcome. -/
theorem claim_C9 (registry : Registry) (allowed : Allowed)
    (l1 l2 : List AcceptPreference)
    (h : List.Forall₂ (fun p q =>
        p.media_type = q.media_type
        ∧ alookup p.params vendorKey = alookup q.params vendorKey
        ∧ alookup p.params versionKey = alookup q.params versionKey) l1 l2) :
    mapLoop registry allowed l1 = mapLoop registry allowed l2 := by
  induction h with
  | nil => rfl
  | @cons a b l1t l2t hab htail ih =>
    obtain ⟨hm, hv, hw⟩ := hab
    have hcand : candidateOf a = candidateOf b := by
      unfold candidateOf
      rw [hm, hv, hw]
    unfold mapLoop
    rw [hm, hcand, ih]

/-- C9 witness: the JSON preference at quality `1` and at quality `1/2`
(equal media type, vendor and version lookups) produce the same
negotiation outcome. -/
theorem claim_C9_witness :
    List.Forall₂ (fun p q =>
        p.media_type = q.media_type
        ∧ alookup p.params vendorKey = alookup q.params vendorKey
        ∧ alookup p.params versionKey = alookup q.params versionKey)
      [prefJson] [prefJsonHalf]
    ∧ mapLoop jsonRegistry jsonAllowed [prefJson]
        = mapLoop jsonRegistry jsonAllowed [prefJsonHalf] := by
  have h : List.Forall₂ (fun p q =>
      p.media_type = q.media_type
      ∧ alookup p.params vendorKey = alookup q.params vendorKey
      ∧ alookup p.params versionKey = alookup q.params versionKey)
      [prefJson] [prefJsonHalf] :=
    List.Forall₂.cons ⟨rfl, rfl, rfl⟩ List.Forall₂.nil
  exact ⟨h, claim_C9 jsonRegistry jsonAllowed [prefJson] [prefJsonHalf] h⟩

/-- C10: registration preserves registry well-formedness — a provider
class with `CONTENT_TYPE = None` (such as `ProviderBase`) is never added,
and every entry stored under base media-type key `k` carries a
`ContentType` whose base media type equals `k`. -/
theorem claim_C10 (r : Registry) (cls : ProviderClass) (hwf : RegWF r) :
    (cls.CONTENT_TYPE = none → register cls r = r)
    ∧ RegWF (register cls r) := by
  constructor
  · intro h
    simp only [register, h]
  · intro k ct clsA hmem
    cases hct : cls.CONTENT_TYPE with
    | none =>
      simp only [register, hct] at hmem
      exact hwf k ct clsA hmem
    | some c =>
      simp only [register, hct] at hmem
      by_cases hk : k = c.content_type
      · rw [if_pos hk] at hmem
        rcases List.mem_append.mp hmem with hin | hin
        · exact hwf k ct clsA hin
        · have hpair : ct = c ∧ clsA = cls := by simpa using hin
          rw [hpair.1]
          exact hk.symm
      · rw [if_neg hk] at hmem
        exact hwf k ct clsA hmem

/-- C10 witness: the worked-example registry is well-formed, and
registering `ProviderBase` (whose `CONTENT_TYPE` is `None`) over it adds
nothing and preserves well-formedness. -/
theorem claim_C10_witness :
    RegWF jsonRegistry
    ∧ RegWF (register ProviderBaseCls jsonRegistry)
    ∧ register ProviderBaseCls jsonRegistry = jsonRegistry := by
  have hwf0 : RegWF emptyRegistry := by
    intro k ct cls h
    simp [emptyRegistry] at h
  have hwf : RegWF jsonRegistry :=
    (claim_C10 emptyRegistry JsonProviderCls hwf0).2
  exact ⟨hwf, (claim_C10 jsonRegistry ProviderBaseCls hwf).2,
    (claim_C10 jsonRegistry ProviderBaseCls hwf).1 rfl⟩
